import Mathlib

/-!
Verification of the peer-connection negotiation engine of the meetingPage
repository (webrtc-handler.js, the `WebRTCHandler` class).

The engine is shallowly embedded: the handler object becomes the `Handler`
record, the JavaScript `Map` of peer connections becomes an association
list keyed by `Option String` (a JavaScript `Map` accepts `undefined` as a
key, which `none` represents), and the platform `RTCPeerConnection`
collaborator is modelled by the `PC` record together with the W3C
signaling-state rules for `setLocalDescription`, `setRemoteDescription`,
`addIceCandidate`, `createOffer` and `createAnswer`.  Platform operations
that can reject at run time (malformed SDP and the like) additionally
consult an `Oracle` of injected failures, mirroring the `try`/`catch`
blocks of the source.  Messages sent on the WebSocket are accumulated in
`outbox`; `console.log`/`console.error` output is accumulated in `log`.
The `dropped` field is ghost instrumentation only: whenever a `Map.set`
overwrites an existing entry, the displaced value is recorded there,
verbatim, so that theorems can speak about connection objects that the
source discards without closing.  No handler in the source can throw: every
fallible platform call sits inside a `try`/`catch`, so each handler is a
total function on `Handler`.
-/

namespace MeetingPage

/-- Session-description type tag carried inside an SDP object. -/
inductive SdpType
  | offer
  | answer
deriving DecidableEq

/-- A session description: its type plus opaque content. -/
structure Sdp where
  sdpType : SdpType
  content : Nat
deriving DecidableEq

/-- W3C signaling state of an `RTCPeerConnection`. -/
inductive SigState
  | stable
  | haveLocalOffer
  | haveRemoteOffer
  | closed
deriving DecidableEq

/-- Model of one `RTCPeerConnection` object. -/
structure PC where
  signalingState : SigState
  localDescription : Option Sdp
  remoteDescription : Option Sdp
  appliedCandidates : List Nat
  tracks : List Nat
deriving DecidableEq

/-- A freshly constructed `RTCPeerConnection`: stable, no descriptions. -/
def newPC : PC := ⟨SigState.stable, none, none, [], []⟩

/-- A signaling message.  Fields absent from a given JSON object are
`none` (JavaScript `undefined`).  The JavaScript fields `from` and `to`
are keywords in Lean and appear here as `fromId` and `toId`. -/
structure SignalMsg where
  type : String
  fromId : Option String
  toId : Option String
  userId : Option String
  userName : Option String
  sdp : Option Sdp
  candidate : Option Nat
deriving DecidableEq

/-- A message with the given type and every other field undefined. -/
def baseMsg (t : String) : SignalMsg := ⟨t, none, none, none, none, none, none⟩

/-- Injected platform failures: which fallible `RTCPeerConnection`
operations reject during one handler invocation (malformed SDP,
incompatible candidate, and so on). -/
structure Oracle where
  failCreateOffer : Bool
  failCreateAnswer : Bool
  failSetLocal : Bool
  failSetRemote : Bool
  failAddIce : Bool
deriving DecidableEq

/-- The environment in which every platform operation succeeds. -/
def okOracle : Oracle := ⟨false, false, false, false, false⟩

/-- Modelled platform collaborator: `pc.createOffer()`.  Rejects on a
closed connection or an injected failure; otherwise yields an offer
description (content drawn from a counter) and the bumped counter. -/
def createOffer (o : Oracle) (ctr : Nat) (pc : PC) : Except String (Sdp × Nat) :=
  if pc.signalingState = SigState.closed ∨ o.failCreateOffer then
    Except.error "createOffer rejected"
  else
    Except.ok (⟨SdpType.offer, ctr⟩, ctr + 1)

/-- Modelled platform collaborator: `pc.createAnswer()`.  Valid only with
a remote offer pending (W3C); otherwise, or on injected failure, rejects. -/
def createAnswer (o : Oracle) (ctr : Nat) (pc : PC) : Except String (Sdp × Nat) :=
  if pc.signalingState = SigState.haveRemoteOffer ∧ ¬ o.failCreateAnswer then
    Except.ok (⟨SdpType.answer, ctr⟩, ctr + 1)
  else
    Except.error "createAnswer rejected"

/-- Modelled platform collaborator: `pc.setLocalDescription(d)` with the
W3C state rules: a local offer is valid from `stable` or `haveLocalOffer`
and moves to `haveLocalOffer`; a local answer is valid from
`haveRemoteOffer` and moves to `stable`; anything else rejects with an
InvalidStateError. -/
def setLocalDescription (o : Oracle) (pc : PC) (d : Sdp) : Except String PC :=
  if o.failSetLocal then Except.error "setLocalDescription rejected"
  else
    match d.sdpType, pc.signalingState with
    | SdpType.offer, SigState.stable =>
        Except.ok { pc with localDescription := some d, signalingState := SigState.haveLocalOffer }
    | SdpType.offer, SigState.haveLocalOffer =>
        Except.ok { pc with localDescription := some d, signalingState := SigState.haveLocalOffer }
    | SdpType.answer, SigState.haveRemoteOffer =>
        Except.ok { pc with localDescription := some d, signalingState := SigState.stable }
    | _, _ => Except.error "InvalidStateError"

/-- Modelled platform collaborator: `pc.setRemoteDescription(d)` with the
W3C state rules: a remote offer is valid from `stable` or
`haveRemoteOffer` and moves to `haveRemoteOffer`; a remote answer is valid
from `haveLocalOffer` and moves to `stable`; anything else rejects.  The
source wraps the raw message field in `new RTCSessionDescription(sdp)`, so
an undefined `sdp` field also rejects here. -/
def setRemoteDescription (o : Oracle) (pc : PC) (d : Option Sdp) : Except String PC :=
  match d with
  | none => Except.error "invalid session description"
  | some d =>
    if o.failSetRemote then Except.error "setRemoteDescription rejected"
    else
      match d.sdpType, pc.signalingState with
      | SdpType.offer, SigState.stable =>
          Except.ok { pc with remoteDescription := some d, signalingState := SigState.haveRemoteOffer }
      | SdpType.offer, SigState.haveRemoteOffer =>
          Except.ok { pc with remoteDescription := some d, signalingState := SigState.haveRemoteOffer }
      | SdpType.answer, SigState.haveLocalOffer =>
          Except.ok { pc with remoteDescription := some d, signalingState := SigState.stable }
      | _, _ => Except.error "InvalidStateError"

/-- Modelled platform collaborator: `pc.addIceCandidate(c)`.  Per W3C,
rejects on a closed connection and when no remote description has been
set; otherwise, unless an injected failure occurs, the candidate is
appended to the connection in arrival order. -/
def addIceCandidate (o : Oracle) (pc : PC) (c : Nat) : Except String PC :=
  if pc.signalingState = SigState.closed then Except.error "closed"
  else
    match pc.remoteDescription with
    | none => Except.error "no remote description"
    | some _ =>
      if o.failAddIce then Except.error "addIceCandidate rejected"
      else Except.ok { pc with appliedCandidates := pc.appliedCandidates ++ [c] }

/-- Modelled platform collaborator: `pc.addTrack(t, stream)`. -/
def addTrack (pc : PC) (t : Nat) : PC := { pc with tracks := pc.tracks ++ [t] }

/-- The `localStream.getTracks().forEach(track => pc.addTrack(...))` loop
in the source, skipped when `localStream` is null. -/
def addLocalTracks (ls : Option (List Nat)) (pc : PC) : PC :=
  match ls with
  | some ts => ts.foldl addTrack pc
  | none => pc

/-- `this.peerConnections.get(k)` on the association-list model of the
JavaScript `Map` (first matching entry). -/
def lookupPC : List (Option String × PC) → Option String → Option PC
  | [], _ => none
  | (k, v) :: t, key => if k = key then some v else lookupPC t key

/-- `this.peerConnections.set(k, v)`: replaces the first entry with this
key in place, otherwise appends (matching `Map.set` insertion order). -/
def setPC : List (Option String × PC) → Option String → PC → List (Option String × PC)
  | [], key, v => [(key, v)]
  | (k, w) :: t, key, v => if k = key then (key, v) :: t else (k, w) :: setPC t key v

/-- `this.peerConnections.delete(k)`: removes the first entry with this key. -/
def erasePC : List (Option String × PC) → Option String → List (Option String × PC)
  | [], _ => []
  | (k, w) :: t, key => if k = key then t else (k, w) :: erasePC t key

/-- The key list of the peer-connection map. -/
def keysOf (l : List (Option String × PC)) : List (Option String) := l.map Prod.fst

/-- The `WebRTCHandler` object after construction (and, when `ws` is not
`none`, after `initialize` has installed the WebSocket).  `ws = none`
models `this.ws === null`; `ws = some b` models a socket whose
`readyState === OPEN` test yields `b`.  `outbox` collects the JSON
objects passed to `ws.send`, `log` the console output, `sdpCtr` feeds the
opaque content of generated descriptions, and `dropped` is the ghost
record of map entries displaced by an overwriting `Map.set`. -/
structure Handler where
  meetingId : String
  userId : String
  userName : String
  localStream : Option (List Nat)
  peerConnections : List (Option String × PC)
  ws : Option Bool
  outbox : List SignalMsg
  log : List String
  dropped : List PC
  sdpCtr : Nat
deriving DecidableEq

/-- A handler as built by the constructor, with the WebSocket field set to
the state reached after (or without) `initialize`. -/
def mkHandler (mid uid un : String) (ls : Option (List Nat)) (ws : Option Bool) : Handler :=
  ⟨mid, uid, un, ls, [], ws, [], [], [], 0⟩

/-- One `console.log` / `console.error` / `console.warn` call. -/
def pushLog (s : Handler) (m : String) : Handler := { s with log := s.log ++ [m] }

/-- `sendSignal(data)`: if the socket exists and is open, send
`JSON.stringify(\x7b...data, from: this.userId\x7d)` — the spread stamps
`from` with the local user id, overriding any `from` in the payload. -/
def sendSignal (s : Handler) (data : SignalMsg) : Handler :=
  if s.ws = some true then
    { s with outbox := s.outbox ++ [{ data with fromId := some s.userId }] }
  else s

/-- Store `pc` under `k` in the peer-connection map.  Used both for the
explicit `Map.set` in `createPeerConnection` and to reflect, in this
functional model, the in-place mutations that the source performs on the
very object the map already holds. -/
def setEntry (s : Handler) (k : Option String) (pc : PC) : Handler :=
  { s with peerConnections := setPC s.peerConnections k pc }

/-- `createPeerConnection(userId)`: builds a fresh connection and stores
it with `this.peerConnections.set(userId, pc)`.  The source installs
callbacks (`onicecandidate`, `ontrack`, ...) on the object; those are
asynchronous platform events outside the message-dispatch model.  Ghost
bookkeeping: an entry displaced by the `set` is appended to `dropped`
exactly as it was — the source never closes it. -/
def createPeerConnection (s : Handler) (uid : Option String) : Handler × PC :=
  let dropped :=
    match lookupPC s.peerConnections uid with
    | some old => s.dropped ++ [old]
    | none => s.dropped
  ({ s with peerConnections := setPC s.peerConnections uid newPC, dropped := dropped }, newPC)

/-- `handleUserJoined(message)`: ignore self, create a connection, attach
local tracks, then inside `try` create and apply a local offer and send
it; a failure is logged and swallowed (the map entry remains). -/
def handleUserJoined (o : Oracle) (s : Handler) (msg : SignalMsg) : Handler :=
  if msg.userId = some s.userId then s
  else
    let s1 := pushLog s "WebRTC: User joined"
    let p := createPeerConnection s1 msg.userId
    let pc0 := addLocalTracks p.1.localStream p.2
    let s3 := setEntry p.1 msg.userId pc0
    match createOffer o s3.sdpCtr pc0 with
    | Except.error _ => pushLog s3 "WebRTC: Error creating offer"
    | Except.ok od =>
      match setLocalDescription o pc0 od.1 with
      | Except.error _ => pushLog s3 "WebRTC: Error creating offer"
      | Except.ok pcL =>
        let s4 := setEntry { s3 with sdpCtr := od.2 } msg.userId pcL
        sendSignal s4 { baseMsg "offer" with toId := msg.userId, sdp := some od.1 }

/-- `handleUserLeft(message)`: close and delete the connection if present.
The closed object is deleted immediately, so the close leaves no residue
in the state. -/
def handleUserLeft (s : Handler) (msg : SignalMsg) : Handler :=
  let s1 := pushLog s "WebRTC: User left"
  match lookupPC s1.peerConnections msg.userId with
  | some _ => { s1 with peerConnections := erasePC s1.peerConnections msg.userId }
  | none => s1

/-- `handleOffer(message)`: get or create the connection for `from`
(attaching local tracks on creation), then inside `try` apply the remote
description, create and apply a local answer, and send it; a failure at
any step is logged and swallowed, keeping the map entry together with
whatever mutations succeeded before the failing step. -/
def handleOffer (o : Oracle) (s : Handler) (msg : SignalMsg) : Handler :=
  let s1 := pushLog s "WebRTC: Received offer"
  let pr : Handler × PC :=
    match lookupPC s1.peerConnections msg.fromId with
    | some pc => (s1, pc)
    | none =>
      let p := createPeerConnection s1 msg.fromId
      let pc0 := addLocalTracks p.1.localStream p.2
      (setEntry p.1 msg.fromId pc0, pc0)
  match setRemoteDescription o pr.2 msg.sdp with
  | Except.error _ => pushLog pr.1 "WebRTC: Error handling offer"
  | Except.ok pcR =>
    let s3 := setEntry pr.1 msg.fromId pcR
    match createAnswer o s3.sdpCtr pcR with
    | Except.error _ => pushLog s3 "WebRTC: Error handling offer"
    | Except.ok ad =>
      match setLocalDescription o pcR ad.1 with
      | Except.error _ => pushLog s3 "WebRTC: Error handling offer"
      | Except.ok pcL =>
        let s4 := setEntry { s3 with sdpCtr := ad.2 } msg.fromId pcL
        sendSignal s4 { baseMsg "answer" with toId := msg.fromId, sdp := some ad.1 }

/-- `handleAnswer(message)`: if a connection for `from` exists, apply the
remote description inside `try`; a failure is logged and swallowed.  No
connection: nothing beyond the receipt log. -/
def handleAnswer (o : Oracle) (s : Handler) (msg : SignalMsg) : Handler :=
  let s1 := pushLog s "WebRTC: Received answer"
  match lookupPC s1.peerConnections msg.fromId with
  | none => s1
  | some pc =>
    match setRemoteDescription o pc msg.sdp with
    | Except.ok pcR => setEntry s1 msg.fromId pcR
    | Except.error _ => pushLog s1 "WebRTC: Error setting remote description"

/-- `handleIceCandidate(message)`: only when the connection exists and the
candidate field is present, apply it inside `try`; a failure is logged and
the candidate dropped.  There is no queue anywhere in the source. -/
def handleIceCandidate (o : Oracle) (s : Handler) (msg : SignalMsg) : Handler :=
  match lookupPC s.peerConnections msg.fromId, msg.candidate with
  | some pc, some c =>
    match addIceCandidate o pc c with
    | Except.ok pcA => setEntry s msg.fromId pcA
    | Except.error _ => pushLog s "WebRTC: Error adding ICE candidate"
  | _, _ => s

/-- `handleSignalingMessage(message)`: the dispatcher.  Logs every receipt,
then switches on `message.type`; an unrecognized type falls through the
`switch` with no effect. -/
def handleSignalingMessage (o : Oracle) (s : Handler) (msg : SignalMsg) : Handler :=
  let s0 := pushLog s ("WebRTC: Received signaling message: " ++ msg.type)
  if msg.type = "user-joined" then handleUserJoined o s0 msg
  else if msg.type = "user-left" then handleUserLeft s0 msg
  else if msg.type = "offer" then handleOffer o s0 msg
  else if msg.type = "answer" then handleAnswer o s0 msg
  else if msg.type = "ice-candidate" then handleIceCandidate o s0 msg
  else s0

/-- `close()`: close every peer connection and clear the map, then, if a
socket exists, send `leave` (a no-op unless the socket is open, since
`sendSignal` checks `readyState`) and drop the socket. -/
def close (s : Handler) : Handler :=
  let s1 := pushLog s "WebRTC: Closing all connections"
  let s2 := { s1 with peerConnections := ([] : List (Option String × PC)) }
  if s2.ws = none then s2
  else
    let s3 := sendSignal s2 { baseMsg "leave" with userId := some s2.userId }
    { s3 with ws := none }

/-- Dispatch a list of inbound messages in order, each under its own
failure environment. -/
def runMessages (s : Handler) (l : List (Oracle × SignalMsg)) : Handler :=
  l.foldl (fun st p => handleSignalingMessage p.1 st p.2) s

/-- A `user-joined` or `user-left` event, as relayed by the signaling
server. -/
inductive JEvent
  | joined (u n : String)
  | left (u : String)
deriving DecidableEq

/-- The `userId` carried by a join or leave event. -/
def evUser : JEvent → String
  | JEvent.joined u _ => u
  | JEvent.left u => u

/-- The wire message corresponding to a join or leave event. -/
def evMsg : JEvent → SignalMsg
  | JEvent.joined u n => { baseMsg "user-joined" with userId := some u, userName := some n }
  | JEvent.left u => { baseMsg "user-left" with userId := some u }

/-- Dispatch a list of join and leave events in order, each under its own
failure environment. -/
def runEvents (s : Handler) (l : List (Oracle × JEvent)) : Handler :=
  l.foldl (fun st p => handleSignalingMessage p.1 st (evMsg p.2)) s

/-- Insert a key if absent (the key-set effect of `Map.set`). -/
def insK (ks : List (Option String)) (k : Option String) : List (Option String) :=
  if k ∈ ks then ks else ks ++ [k]

/-- Remove the first occurrence of a key (the key-set effect of
`Map.delete`). -/
def eraseK : List (Option String) → Option String → List (Option String)
  | [], _ => []
  | x :: t, k => if x = k then t else x :: eraseK t k

/-- The key-set effect of one join or leave event. -/
def activeStep (ks : List (Option String)) : JEvent → List (Option String)
  | JEvent.joined u _ => insK ks (some u)
  | JEvent.left u => eraseK ks (some u)

/-- `isActive evs u` holds exactly when, reading `evs` left to right, the
last join or leave event concerning `u` is a join: `u` has joined and not
yet left. -/
def isActiveFrom (b : Bool) (evs : List JEvent) (u : String) : Bool :=
  evs.foldl
    (fun b e =>
      match e with
      | JEvent.joined v _ => if v = u then true else b
      | JEvent.left v => if v = u then false else b) b

/-- `u` has joined and not yet left over the course of `evs`. -/
def isActive (evs : List JEvent) (u : String) : Bool := isActiveFrom false evs u

/-- Concrete handler used by witnesses and counterexamples: local user
`"u1"` with an open signaling channel and no peers yet. -/
def wBase : Handler := mkHandler "m1" "u1" "Alice" none (some true)

/-- `user-joined` message for `"u2"`. -/
def wJoin2 : SignalMsg := { baseMsg "user-joined" with userId := some "u2", userName := some "Bob" }

/-- `ice-candidate` message from `"u2"`. -/
def wIce2 : SignalMsg := { baseMsg "ice-candidate" with fromId := some "u2", candidate := some 7 }

/-- `answer` message from `"u2"` carrying an answer description. -/
def wAns2 : SignalMsg := { baseMsg "answer" with fromId := some "u2", sdp := some ⟨SdpType.answer, 99⟩ }

/-- `offer` message from `"u3"` carrying an offer description. -/
def wOff3 : SignalMsg := { baseMsg "offer" with fromId := some "u3", toId := some "u1", sdp := some ⟨SdpType.offer, 5⟩ }

/-- Failure environment in which `setRemoteDescription` rejects. -/
def failSetRemoteOracle : Oracle := ⟨false, false, false, true, false⟩

/-- A connection that has produced a local offer and awaits the answer. -/
def pcLocalOffer : PC := ⟨SigState.haveLocalOffer, some ⟨SdpType.offer, 0⟩, none, [], []⟩

/-- Concrete state with two peers: `"u2"` awaiting an answer and `"u3"`
freshly created. -/
def twoPeerState : Handler :=
  { wBase with peerConnections := [(some "u2", pcLocalOffer), (some "u3", newPC)] }

/-! ## Basic lemmas about the map model and the primitive operations -/

theorem lookupPC_setPC (l : List (Option String × PC)) (k y : Option String) (v : PC) :
    lookupPC (setPC l k v) y = if y = k then some v else lookupPC l y := by
  induction l with
  | nil =>
    simp only [setPC, lookupPC]
    by_cases h : k = y
    · subst h; simp
    · rw [if_neg h, if_neg (fun hy => h hy.symm)]
  | cons a t ih =>
    obtain ⟨ak, av⟩ := a
    simp only [setPC]
    by_cases hak : ak = k
    · subst hak
      rw [if_pos rfl]
      simp only [lookupPC]
      by_cases hyk : ak = y
      · subst hyk; rw [if_pos rfl, if_pos rfl]
      · rw [if_neg hyk, if_neg hyk, if_neg (fun hy => hyk hy.symm)]
    · rw [if_neg hak]
      simp only [lookupPC]
      by_cases hay : ak = y
      · subst hay
        rw [if_pos rfl, if_neg hak, if_pos rfl]
      · rw [if_neg hay, ih]
        by_cases hyk : y = k
        · rw [if_pos hyk, if_pos hyk]
        · rw [if_neg hyk, if_neg hyk, if_neg hay]

theorem keysOf_setPC (l : List (Option String × PC)) (k : Option String) (v : PC) :
    keysOf (setPC l k v) = insK (keysOf l) k := by
  induction l with
  | nil => simp [setPC, keysOf, insK]
  | cons a t ih =>
    obtain ⟨ak, av⟩ := a
    by_cases hak : ak = k
    · subst hak; simp [setPC, keysOf, insK]
    · by_cases hk : k ∈ keysOf t <;>
        simp_all [setPC, keysOf, insK, Ne.symm hak]

theorem keysOf_erasePC (l : List (Option String × PC)) (k : Option String) :
    keysOf (erasePC l k) = eraseK (keysOf l) k := by
  induction l with
  | nil => simp [erasePC, keysOf, eraseK]
  | cons a t ih =>
    obtain ⟨ak, av⟩ := a
    by_cases hak : ak = k <;> simp_all [erasePC, keysOf, eraseK]

theorem lookupPC_none_iff (l : List (Option String × PC)) (k : Option String) :
    lookupPC l k = none ↔ k ∉ keysOf l := by
  induction l with
  | nil => simp [lookupPC, keysOf]
  | cons a t ih =>
    obtain ⟨ak, av⟩ := a
    by_cases hak : ak = k <;> simp_all [lookupPC, keysOf, eq_comm]

theorem lookupPC_isSome_iff (l : List (Option String × PC)) (k : Option String) :
    (lookupPC l k).isSome = true ↔ k ∈ keysOf l := by
  induction l with
  | nil => simp [lookupPC, keysOf]
  | cons a t ih =>
    obtain ⟨ak, av⟩ := a
    simp only [lookupPC, keysOf, List.map_cons, List.mem_cons]
    by_cases hak : ak = k
    · subst hak; simp
    · rw [if_neg hak]
      simp only [keysOf] at ih
      rw [ih]
      constructor
      · exact fun h => Or.inr h
      · rintro (h | h)
        · exact absurd h.symm hak
        · exact h

theorem mem_of_mem_eraseK (ks : List (Option String)) (k x : Option String)
    (h : x ∈ eraseK ks k) : x ∈ ks := by
  induction ks with
  | nil => simp [eraseK] at h
  | cons a t ih =>
    by_cases hak : a = k
    · subst hak; simp [eraseK] at h; simp [h]
    · simp [eraseK, hak] at h
      rcases h with h | h
      · simp [h]
      · simp [ih h]

theorem eraseK_not_mem (ks : List (Option String)) (k : Option String)
    (h : k ∉ ks) : eraseK ks k = ks := by
  induction ks with
  | nil => rfl
  | cons a t ih =>
    simp only [List.mem_cons, not_or] at h
    simp [eraseK, Ne.symm (Ne.intro h.1), ih h.2]

theorem mem_eraseK_of_ne (ks : List (Option String)) (k x : Option String)
    (h : x ≠ k) : x ∈ eraseK ks k ↔ x ∈ ks := by
  induction ks with
  | nil => simp [eraseK]
  | cons a t ih =>
    by_cases hak : a = k
    · subst hak; simp [eraseK, h]
    · simp [eraseK, hak, ih]

theorem nodup_eraseK (ks : List (Option String)) (k : Option String)
    (h : ks.Nodup) : (eraseK ks k).Nodup := by
  induction ks with
  | nil => simp [eraseK]
  | cons a t ih =>
    rcases List.nodup_cons.mp h with ⟨ha, ht⟩
    by_cases hak : a = k
    · subst hak; simpa [eraseK] using ht
    · simp only [eraseK, if_neg hak]
      exact List.nodup_cons.mpr ⟨fun hmem => ha (mem_of_mem_eraseK t k a hmem), ih ht⟩

theorem not_mem_eraseK_self (ks : List (Option String)) (k : Option String)
    (h : ks.Nodup) : k ∉ eraseK ks k := by
  induction ks with
  | nil => simp [eraseK]
  | cons a t ih =>
    rcases List.nodup_cons.mp h with ⟨ha, ht⟩
    by_cases hak : a = k
    · subst hak; simpa [eraseK] using ha
    · simp only [eraseK, if_neg hak, List.mem_cons, not_or]
      exact ⟨fun hka => hak hka.symm, ih ht⟩

theorem mem_insK_self (ks : List (Option String)) (k : Option String) : k ∈ insK ks k := by
  unfold insK; split <;> simp_all

theorem mem_insK_iff (ks : List (Option String)) (k x : Option String) :
    x ∈ insK ks k ↔ x ∈ ks ∨ x = k := by
  unfold insK
  split
  · rename_i hmem
    constructor
    · exact fun hx => Or.inl hx
    · rintro (hx | hx)
      · exact hx
      · subst hx; exact hmem
  · simp

theorem insK_of_mem (ks : List (Option String)) (k : Option String)
    (h : k ∈ ks) : insK ks k = ks := by
  simp [insK, h]

theorem insK_idem (ks : List (Option String)) (k : Option String) :
    insK (insK ks k) k = insK ks k :=
  insK_of_mem _ _ (mem_insK_self ks k)

theorem nodup_insK (ks : List (Option String)) (k : Option String)
    (h : ks.Nodup) : (insK ks k).Nodup := by
  unfold insK
  split
  · exact h
  · simpa [List.nodup_append] using ⟨h, by assumption⟩

/-! ## Field-preservation lemmas for the primitive handler operations -/

@[simp] theorem pushLog_userId (s : Handler) (m : String) : (pushLog s m).userId = s.userId := rfl

@[simp] theorem pushLog_ws (s : Handler) (m : String) : (pushLog s m).ws = s.ws := rfl

@[simp] theorem pushLog_peerConnections (s : Handler) (m : String) :
    (pushLog s m).peerConnections = s.peerConnections := rfl

@[simp] theorem pushLog_outbox (s : Handler) (m : String) : (pushLog s m).outbox = s.outbox := rfl

@[simp] theorem pushLog_localStream (s : Handler) (m : String) :
    (pushLog s m).localStream = s.localStream := rfl

@[simp] theorem pushLog_dropped (s : Handler) (m : String) : (pushLog s m).dropped = s.dropped := rfl

@[simp] theorem pushLog_log (s : Handler) (m : String) : (pushLog s m).log = s.log ++ [m] := rfl

@[simp] theorem setEntry_userId (s : Handler) (k : Option String) (pc : PC) :
    (setEntry s k pc).userId = s.userId := rfl

@[simp] theorem setEntry_ws (s : Handler) (k : Option String) (pc : PC) :
    (setEntry s k pc).ws = s.ws := rfl

@[simp] theorem setEntry_outbox (s : Handler) (k : Option String) (pc : PC) :
    (setEntry s k pc).outbox = s.outbox := rfl

@[simp] theorem setEntry_log (s : Handler) (k : Option String) (pc : PC) :
    (setEntry s k pc).log = s.log := rfl

@[simp] theorem setEntry_dropped (s : Handler) (k : Option String) (pc : PC) :
    (setEntry s k pc).dropped = s.dropped := rfl

@[simp] theorem setEntry_peerConnections (s : Handler) (k : Option String) (pc : PC) :
    (setEntry s k pc).peerConnections = setPC s.peerConnections k pc := rfl

@[simp] theorem sendSignal_userId (s : Handler) (d : SignalMsg) :
    (sendSignal s d).userId = s.userId := by
  unfold sendSignal; split <;> rfl

@[simp] theorem sendSignal_ws (s : Handler) (d : SignalMsg) : (sendSignal s d).ws = s.ws := by
  unfold sendSignal; split <;> rfl

@[simp] theorem sendSignal_peerConnections (s : Handler) (d : SignalMsg) :
    (sendSignal s d).peerConnections = s.peerConnections := by
  unfold sendSignal; split <;> rfl

@[simp] theorem sendSignal_log (s : Handler) (d : SignalMsg) : (sendSignal s d).log = s.log := by
  unfold sendSignal; split <;> rfl

@[simp] theorem sendSignal_dropped (s : Handler) (d : SignalMsg) :
    (sendSignal s d).dropped = s.dropped := by
  unfold sendSignal; split <;> rfl

@[simp] theorem createPC_fst_userId (s : Handler) (uid : Option String) :
    (createPeerConnection s uid).1.userId = s.userId := rfl

@[simp] theorem createPC_fst_ws (s : Handler) (uid : Option String) :
    (createPeerConnection s uid).1.ws = s.ws := rfl

@[simp] theorem createPC_fst_outbox (s : Handler) (uid : Option String) :
    (createPeerConnection s uid).1.outbox = s.outbox := rfl

@[simp] theorem createPC_fst_log (s : Handler) (uid : Option String) :
    (createPeerConnection s uid).1.log = s.log := rfl

@[simp] theorem createPC_fst_localStream (s : Handler) (uid : Option String) :
    (createPeerConnection s uid).1.localStream = s.localStream := rfl

@[simp] theorem createPC_fst_peerConnections (s : Handler) (uid : Option String) :
    (createPeerConnection s uid).1.peerConnections = setPC s.peerConnections uid newPC := rfl

@[simp] theorem createPC_snd (s : Handler) (uid : Option String) :
    (createPeerConnection s uid).2 = newPC := rfl

/-- Attaching local tracks only changes the `tracks` field. -/
theorem addLocalTracks_eq (ls : Option (List Nat)) (pc : PC) :
    ∃ ts, addLocalTracks ls pc = { pc with tracks := ts } := by
  cases ls with
  | none => exact ⟨pc.tracks, rfl⟩
  | some l =>
    induction l generalizing pc with
    | nil => exact ⟨pc.tracks, rfl⟩
    | cons a t ih =>
      obtain ⟨ts, hts⟩ := ih (addTrack pc a)
      exact ⟨ts, hts⟩

/-! ## Handler-level preservation lemmas -/

theorem handleUserJoined_userId (o : Oracle) (s : Handler) (msg : SignalMsg) :
    (handleUserJoined o s msg).userId = s.userId := by
  simp only [handleUserJoined]
  split
  · rfl
  · split <;> (try split) <;> simp

theorem handleUserLeft_userId (s : Handler) (msg : SignalMsg) :
    (handleUserLeft s msg).userId = s.userId := by
  simp only [handleUserLeft]
  split <;> rfl

theorem handleOffer_userId (o : Oracle) (s : Handler) (msg : SignalMsg) :
    (handleOffer o s msg).userId = s.userId := by
  simp only [handleOffer]
  split <;> (try split) <;> (try split) <;> (try split) <;> simp

theorem handleAnswer_userId (o : Oracle) (s : Handler) (msg : SignalMsg) :
    (handleAnswer o s msg).userId = s.userId := by
  simp only [handleAnswer]
  split <;> (try split) <;> simp

theorem handleIceCandidate_userId (o : Oracle) (s : Handler) (msg : SignalMsg) :
    (handleIceCandidate o s msg).userId = s.userId := by
  simp only [handleIceCandidate]
  split <;> (try split) <;> simp

theorem handleSignalingMessage_userId (o : Oracle) (s : Handler) (msg : SignalMsg) :
    (handleSignalingMessage o s msg).userId = s.userId := by
  simp only [handleSignalingMessage]
  split <;> (try split) <;> (try split) <;> (try split) <;> (try split) <;>
    simp [handleUserJoined_userId, handleUserLeft_userId, handleOffer_userId,
      handleAnswer_userId, handleIceCandidate_userId]

/-! ## Key-set effect of each handler -/

theorem keysOf_handleUserJoined (o : Oracle) (s : Handler) (msg : SignalMsg)
    (h : ¬ msg.userId = some s.userId) :
    keysOf (handleUserJoined o s msg).peerConnections
      = insK (keysOf s.peerConnections) msg.userId := by
  simp only [handleUserJoined, if_neg h]
  split <;> (try split) <;> simp [keysOf_setPC, insK_idem]

theorem keysOf_handleUserLeft (s : Handler) (msg : SignalMsg) :
    keysOf (handleUserLeft s msg).peerConnections
      = eraseK (keysOf s.peerConnections) msg.userId := by
  simp only [handleUserLeft]
  split
  · simp [keysOf_erasePC]
  · rename_i hpc
    have hmem : msg.userId ∉ keysOf s.peerConnections :=
      (lookupPC_none_iff _ _).mp (by simpa using hpc)
    simp [eraseK_not_mem _ _ hmem]

theorem keysOf_step_joined (o : Oracle) (s : Handler) (u n : String) (h : u ≠ s.userId) :
    keysOf (handleSignalingMessage o s (evMsg (JEvent.joined u n))).peerConnections
      = insK (keysOf s.peerConnections) (some u) := by
  simp only [handleSignalingMessage, evMsg, baseMsg, if_true]
  rw [keysOf_handleUserJoined]
  · simp
  · simpa using h

theorem keysOf_step_left (o : Oracle) (s : Handler) (u : String) :
    keysOf (handleSignalingMessage o s (evMsg (JEvent.left u))).peerConnections
      = eraseK (keysOf s.peerConnections) (some u) := by
  simp only [handleSignalingMessage, evMsg, baseMsg, if_true]
  rw [if_neg (by decide), keysOf_handleUserLeft]
  simp

/-! ## The Session Directory key set under join and leave sequences -/

theorem keysOf_runEvents (l : List (Oracle × JEvent)) :
    ∀ s : Handler, (∀ p ∈ l, evUser p.2 ≠ s.userId) →
      keysOf (runEvents s l).peerConnections
        = (l.map Prod.snd).foldl activeStep (keysOf s.peerConnections) := by
  induction l with
  | nil => intro s _; rfl
  | cons p t ih =>
    intro s h
    obtain ⟨o, e⟩ := p
    have h1 : evUser e ≠ s.userId := h (o, e) (List.mem_cons_self _ _)
    have h2 : ∀ q ∈ t, evUser q.2 ≠ (handleSignalingMessage o s (evMsg e)).userId := by
      intro q hq
      rw [handleSignalingMessage_userId]
      exact h q (List.mem_cons_of_mem _ hq)
    have hstep : keysOf (handleSignalingMessage o s (evMsg e)).peerConnections
        = activeStep (keysOf s.peerConnections) e := by
      cases e with
      | joined u n => exact keysOf_step_joined o s u n h1
      | left u => exact keysOf_step_left o s u
    calc keysOf (runEvents s ((o, e) :: t)).peerConnections
        = keysOf (runEvents (handleSignalingMessage o s (evMsg e)) t).peerConnections := rfl
      _ = (t.map Prod.snd).foldl activeStep
            (keysOf (handleSignalingMessage o s (evMsg e)).peerConnections) := ih _ h2
      _ = (t.map Prod.snd).foldl activeStep (activeStep (keysOf s.peerConnections) e) := by
            rw [hstep]
      _ = (((o, e) :: t).map Prod.snd).foldl activeStep (keysOf s.peerConnections) := rfl

theorem nodup_foldl_activeStep (evs : List JEvent) :
    ∀ acc : List (Option String), acc.Nodup → (evs.foldl activeStep acc).Nodup := by
  induction evs with
  | nil => intro acc h; exact h
  | cons e t ih =>
    intro acc h
    refine ih _ ?_
    cases e with
    | joined u n => exact nodup_insK _ _ h
    | left u => exact nodup_eraseK _ _ h

theorem mem_foldl_activeStep (evs : List JEvent) :
    ∀ (acc : List (Option String)) (u : String), acc.Nodup →
      ((some u ∈ evs.foldl activeStep acc) ↔ isActiveFrom (decide (some u ∈ acc)) evs u = true) := by
  induction evs with
  | nil =>
    intro acc u _
    simp [isActiveFrom]
  | cons e t ih =>
    intro acc u h
    cases e with
    | joined v n =>
      have hacc : (insK acc (some v)).Nodup := nodup_insK _ _ h
      have hmain := ih (insK acc (some v)) u hacc
      have hstep : decide ((some u : Option String) ∈ insK acc (some v))
          = if v = u then true else decide ((some u : Option String) ∈ acc) := by
        by_cases hv : v = u
        · subst hv; simp [mem_insK_self]
        · rw [if_neg hv]
          apply decide_eq_decide.mpr
          rw [mem_insK_iff]
          constructor
          · rintro (hx | hx)
            · exact hx
            · exact absurd (Option.some_injective _ hx).symm hv
          · exact fun hx => Or.inl hx
      show (some u ∈ t.foldl activeStep (insK acc (some v)))
          ↔ isActiveFrom (if v = u then true else decide ((some u : Option String) ∈ acc)) t u = true
      rw [← hstep]
      exact hmain
    | left v =>
      have hacc : (eraseK acc (some v)).Nodup := nodup_eraseK _ _ h
      have hmain := ih (eraseK acc (some v)) u hacc
      have hstep : decide ((some u : Option String) ∈ eraseK acc (some v))
          = if v = u then false else decide ((some u : Option String) ∈ acc) := by
        by_cases hv : v = u
        · subst hv
          rw [if_pos rfl]
          exact decide_eq_false (not_mem_eraseK_self _ _ h)
        · rw [if_neg hv]
          apply decide_eq_decide.mpr
          exact mem_eraseK_of_ne _ _ _ (fun hx => hv (Option.some_injective _ hx).symm)
      show (some u ∈ t.foldl activeStep (eraseK acc (some v)))
          ↔ isActiveFrom (if v = u then false else decide ((some u : Option String) ∈ acc)) t u = true
      rw [← hstep]
      exact hmain

/-! ## Outbox and log effects of the handlers -/

theorem sendSignal_outbox_of (s0 s : Handler) (d : SignalMsg)
    (ho : s.outbox = s0.outbox) (hu : s.userId = s0.userId) :
    ∃ t, (sendSignal s d).outbox = s0.outbox ++ t ∧ ∀ m ∈ t, m.fromId = some s0.userId := by
  unfold sendSignal
  split
  · exact ⟨[{ d with fromId := some s.userId }], by simp [ho], by simp [hu]⟩
  · exact ⟨[], by simp [ho], by simp⟩

theorem handleUserJoined_outbox (o : Oracle) (s : Handler) (msg : SignalMsg) :
    ∃ t, (handleUserJoined o s msg).outbox = s.outbox ++ t
      ∧ ∀ m ∈ t, m.fromId = some s.userId := by
  simp only [handleUserJoined]
  split
  · exact ⟨[], by simp, by simp⟩
  · split
    · exact ⟨[], by simp, by simp⟩
    · split
      · exact ⟨[], by simp, by simp⟩
      · exact sendSignal_outbox_of s _ _ (by simp) (by simp)

theorem handleOffer_outbox (o : Oracle) (s : Handler) (msg : SignalMsg) :
    ∃ t, (handleOffer o s msg).outbox = s.outbox ++ t
      ∧ ∀ m ∈ t, m.fromId = some s.userId := by
  simp only [handleOffer]
  split
  all_goals try split
  all_goals try split
  all_goals try split
  all_goals
    first
      | exact sendSignal_outbox_of s _ _ (by simp) (by simp)
      | exact ⟨[], by simp, by simp⟩

theorem handleUserLeft_outbox (s : Handler) (msg : SignalMsg) :
    (handleUserLeft s msg).outbox = s.outbox := by
  simp only [handleUserLeft]
  split <;> rfl

theorem handleAnswer_outbox (o : Oracle) (s : Handler) (msg : SignalMsg) :
    (handleAnswer o s msg).outbox = s.outbox := by
  simp only [handleAnswer]
  split <;> (try split) <;> simp

theorem handleIceCandidate_outbox (o : Oracle) (s : Handler) (msg : SignalMsg) :
    (handleIceCandidate o s msg).outbox = s.outbox := by
  simp only [handleIceCandidate]
  split <;> (try split) <;> simp

/-! ## `close` -/

theorem close_ws_none (s : Handler) : (close s).ws = none := by
  simp only [close]
  split
  · rename_i h; simpa using h
  · simp

theorem close_peerConnections (s : Handler) : (close s).peerConnections = [] := by
  simp only [close]
  split
  · rfl
  · simp

/-! ## Claim theorems -/

/-- Claim C3: for every sequence of `user-joined` and `user-left` events
with userIds distinct from the local user's id, the key set of the
peer-connection map equals exactly the set of participants that have
joined and not yet left, and the map never holds more than one connection
per remote participantId (the key list is duplicate-free). -/
theorem c3_directory_tracks_joins_and_leaves (mid uid un : String) (ls : Option (List Nat))
    (ws : Option Bool) (l : List (Oracle × JEvent))
    (h : ∀ p ∈ l, evUser p.2 ≠ uid) :
    (keysOf (runEvents (mkHandler mid uid un ls ws) l).peerConnections).Nodup
    ∧ ∀ u : String,
        (some u ∈ keysOf (runEvents (mkHandler mid uid un ls ws) l).peerConnections
          ↔ isActive (l.map Prod.snd) u = true) := by
  have hkeys := keysOf_runEvents l (mkHandler mid uid un ls ws)
    (by intro p hp; simpa [mkHandler] using h p hp)
  constructor
  · rw [hkeys]
    exact nodup_foldl_activeStep _ _ (by simp [mkHandler, keysOf])
  · intro u
    rw [hkeys]
    have hm := mem_foldl_activeStep (l.map Prod.snd)
      (keysOf (mkHandler mid uid un ls ws).peerConnections) u
      (by simp [mkHandler, keysOf])
    simpa [mkHandler, keysOf, isActive] using hm

/-- Witness for C3 at a concrete event sequence: `u2` joins, `u3` joins,
`u2` leaves; afterwards the directory holds exactly `u3`. -/
theorem c3_witness :
    (keysOf (runEvents (mkHandler "m1" "u1" "Alice" none (some true))
        [(okOracle, JEvent.joined "u2" "Bob"), (okOracle, JEvent.joined "u3" "Cleo"),
         (okOracle, JEvent.left "u2")]).peerConnections).Nodup
    ∧ ∀ u : String,
        (some u ∈ keysOf (runEvents (mkHandler "m1" "u1" "Alice" none (some true))
            [(okOracle, JEvent.joined "u2" "Bob"), (okOracle, JEvent.joined "u3" "Cleo"),
             (okOracle, JEvent.left "u2")]).peerConnections
          ↔ isActive ([(okOracle, JEvent.joined "u2" "Bob"), (okOracle, JEvent.joined "u3" "Cleo"),
             (okOracle, JEvent.left "u2")].map Prod.snd) u = true) :=
  c3_directory_tracks_joins_and_leaves "m1" "u1" "Alice" none (some true)
    [(okOracle, JEvent.joined "u2" "Bob"), (okOracle, JEvent.joined "u3" "Cleo"),
     (okOracle, JEvent.left "u2")] (by decide)

/-- Claim C6: `close` never faults (it is a total function in this model,
mirroring a source body whose operations cannot throw), and after each of
two consecutive calls — including calls made before the signaling channel
was ever opened, since `s` ranges over handlers with `ws = none` as well —
the Session Directory is empty. -/
theorem c6_close_idempotent (s : Handler) :
    (close s).peerConnections = [] ∧ (close (close s)).peerConnections = []
    ∧ (close s).ws = none :=
  ⟨close_peerConnections s, close_peerConnections (close s), close_ws_none s⟩

/-- Claim C8: a message of unrecognized type is discarded: the dispatcher
only appends the receipt log line, leaving connections and outbox (and
everything else) unchanged, and does not fault. -/
theorem c8_unknown_type_discarded (o : Oracle) (s : Handler) (msg : SignalMsg)
    (h : msg.type ∉ (["user-joined", "user-left", "offer", "answer", "ice-candidate"] : List String)) :
    handleSignalingMessage o s msg
        = pushLog s ("WebRTC: Received signaling message: " ++ msg.type)
    ∧ (handleSignalingMessage o s msg).peerConnections = s.peerConnections
    ∧ (handleSignalingMessage o s msg).outbox = s.outbox := by
  simp only [List.mem_cons, List.not_mem_nil, or_false, not_or] at h
  obtain ⟨h1, h2, h3, h4, h5⟩ := h
  have hmain : handleSignalingMessage o s msg
      = pushLog s ("WebRTC: Received signaling message: " ++ msg.type) := by
    simp only [handleSignalingMessage, if_neg h1, if_neg h2, if_neg h3, if_neg h4, if_neg h5]
  exact ⟨hmain, by rw [hmain]; simp, by rw [hmain]; simp⟩

/-- Witness for C8 at the unrecognized message type `"chat"`. -/
theorem c8_witness :
    handleSignalingMessage okOracle wBase (baseMsg "chat")
        = pushLog wBase ("WebRTC: Received signaling message: " ++ (baseMsg "chat").type)
    ∧ (handleSignalingMessage okOracle wBase (baseMsg "chat")).peerConnections
        = wBase.peerConnections
    ∧ (handleSignalingMessage okOracle wBase (baseMsg "chat")).outbox = wBase.outbox :=
  c8_unknown_type_discarded okOracle wBase (baseMsg "chat") (by decide)

/-- Claim C9: `sendSignal` stamps `from` with the local user id, replacing
any `from` field of the payload, so every message the dispatcher ever
appends to the channel carries `from = userId`. -/
theorem c9_outbound_from_stamped (o : Oracle) (s : Handler) (msg data : SignalMsg) :
    ((sendSignal s data).outbox = s.outbox ∨
       (sendSignal s data).outbox = s.outbox ++ [{ data with fromId := some s.userId }])
    ∧ ∃ t, (handleSignalingMessage o s msg).outbox = s.outbox ++ t
        ∧ ∀ m ∈ t, m.fromId = some s.userId := by
  constructor
  · unfold sendSignal
    split
    · right; rfl
    · left; rfl
  · simp only [handleSignalingMessage]
    split
    · obtain ⟨t, ht, hall⟩ := handleUserJoined_outbox o (pushLog s _) msg
      exact ⟨t, by simpa using ht, by simpa using hall⟩
    · split
      · exact ⟨[], by simp [handleUserLeft_outbox], by simp⟩
      · split
        · obtain ⟨t, ht, hall⟩ := handleOffer_outbox o (pushLog s _) msg
          exact ⟨t, by simpa using ht, by simpa using hall⟩
        · split
          · exact ⟨[], by simp [handleAnswer_outbox], by simp⟩
          · split
            · exact ⟨[], by simp [handleIceCandidate_outbox], by simp⟩
            · exact ⟨[], by simp, by simp⟩

/-- With an answer-typed (or absent) description, `setRemoteDescription`
rejects in every state other than `haveLocalOffer`. -/
theorem setRemoteDescription_answer_err (o : Oracle) (pc : PC) (d : Option Sdp)
    (hd : ∀ x, d = some x → x.sdpType = SdpType.answer)
    (hstate : pc.signalingState ≠ SigState.haveLocalOffer) :
    ∃ e, setRemoteDescription o pc d = Except.error e := by
  cases d with
  | none => exact ⟨_, rfl⟩
  | some x =>
    obtain ⟨xt, xc⟩ := x
    cases xt with
    | offer => exact absurd (hd _ rfl) (by simp)
    | answer =>
      cases hf : o.failSetRemote with
      | true => exact ⟨"setRemoteDescription rejected", by simp [setRemoteDescription, hf]⟩
      | false =>
        refine ⟨"InvalidStateError", ?_⟩
        cases hss : pc.signalingState with
        | stable => simp [setRemoteDescription, hf, hss]
        | haveLocalOffer => exact absurd hss hstate
        | haveRemoteOffer => simp [setRemoteDescription, hf, hss]
        | closed => simp [setRemoteDescription, hf, hss]

/-- Claim C7: an answer is accepted — remote description applied and the
connection moved to `STABLE` — only when the connection exists and is in
`HAVE_LOCAL_OFFER`; an answer with no matching connection, or arriving in
any other state, is discarded (only log output is produced) with no state
change and no fault.  The hypothesis `hsdp` states that the message is a
genuine answer: its `sdp` payload, if present, has answer type. -/
theorem c7_answer_only_in_have_local_offer (o : Oracle) (s : Handler) (msg : SignalMsg)
    (hsdp : ∀ d, msg.sdp = some d → d.sdpType = SdpType.answer) :
    (lookupPC s.peerConnections msg.fromId = none →
        (handleAnswer o s msg).peerConnections = s.peerConnections
        ∧ (handleAnswer o s msg).outbox = s.outbox
        ∧ ∃ t, t ≠ ([] : List String) ∧ (handleAnswer o s msg).log = s.log ++ t)
    ∧ (∀ pc, lookupPC s.peerConnections msg.fromId = some pc →
        pc.signalingState ≠ SigState.haveLocalOffer →
        (handleAnswer o s msg).peerConnections = s.peerConnections
        ∧ (handleAnswer o s msg).outbox = s.outbox
        ∧ ∃ t, t ≠ ([] : List String) ∧ (handleAnswer o s msg).log = s.log ++ t)
    ∧ (∀ pc d, lookupPC s.peerConnections msg.fromId = some pc →
        pc.signalingState = SigState.haveLocalOffer → msg.sdp = some d →
        o.failSetRemote = false →
        (handleAnswer o s msg).peerConnections
          = setPC s.peerConnections msg.fromId
              { pc with remoteDescription := some d, signalingState := SigState.stable }) := by
  refine ⟨?_, ?_, ?_⟩
  · intro hnone
    simp only [handleAnswer, pushLog_peerConnections, hnone]
    exact ⟨by simp, by simp, ⟨["WebRTC: Received answer"], by simp, by simp⟩⟩
  · intro pc hpc hstate
    obtain ⟨e, he⟩ := setRemoteDescription_answer_err o pc msg.sdp hsdp hstate
    simp only [handleAnswer, pushLog_peerConnections, hpc, he]
    exact ⟨by simp, by simp,
      ⟨["WebRTC: Received answer", "WebRTC: Error setting remote description"],
        by simp, by simp [List.append_assoc]⟩⟩
  · intro pc d hpc hstate hd ho
    have hok : setRemoteDescription o pc msg.sdp
        = Except.ok { pc with remoteDescription := some d, signalingState := SigState.stable } := by
      rw [hd]
      obtain ⟨dt, dc⟩ := d
      have hdt : dt = SdpType.answer := hsdp ⟨dt, dc⟩ hd
      subst hdt
      simp [setRemoteDescription, ho, hstate]
    simp only [handleAnswer, pushLog_peerConnections, hpc, hok]
    simp

/-- Witness for C7: with no connection present, a stray answer changes
neither the directory nor the outbox and produces only log output. -/
theorem c7_witness :
    (handleAnswer okOracle wBase wAns2).peerConnections = wBase.peerConnections
    ∧ (handleAnswer okOracle wBase wAns2).outbox = wBase.outbox
    ∧ ∃ t, t ≠ ([] : List String) ∧ (handleAnswer okOracle wBase wAns2).log = wBase.log ++ t :=
  (c7_answer_only_in_have_local_offer okOracle wBase wAns2
    (fun d hd => by injection hd with h; rw [← h])).1 rfl

/-- If the connection has no remote description, `addIceCandidate`
rejects. -/
theorem addIceCandidate_err_of_no_remote (o : Oracle) (pc : PC) (c : Nat)
    (h : pc.remoteDescription = none) :
    ∃ e, addIceCandidate o pc c = Except.error e := by
  unfold addIceCandidate
  split
  · exact ⟨_, rfl⟩
  · rw [h]
    exact ⟨_, rfl⟩

/-- Claim C1 counterexample: local user `u1` receives `user-joined` from
`u2`, then an ICE candidate from `u2` while `u2`'s remote description is
not yet set, then `u2`'s answer which sets the remote description.  The
claim says the early candidate is queued and applied after the
description is set; in fact, at the end of the run the remote description
is set and the applied-candidate list is empty — the candidate was
dropped. -/
theorem c1_counterexample :
    (lookupPC (runMessages wBase
        [(okOracle, wJoin2), (okOracle, wIce2), (okOracle, wAns2)]).peerConnections
        (some "u2")).map (fun pc => (pc.remoteDescription.isSome, pc.appliedCandidates))
      = some (true, []) := by
  decide

/-- Claim C1 (amended): an ICE candidate arriving before the remote
description is set (or for a participant with no connection) is never
queued: the handler attempts immediate application, the failure is caught,
and the candidate is dropped — the peer-connection map and the outbox are
unchanged. -/
theorem c1_amended_early_candidates_dropped (o : Oracle) (s : Handler) (msg : SignalMsg)
    (h : ∀ pc, lookupPC s.peerConnections msg.fromId = some pc → pc.remoteDescription = none) :
    (handleIceCandidate o s msg).peerConnections = s.peerConnections
    ∧ (handleIceCandidate o s msg).outbox = s.outbox := by
  simp only [handleIceCandidate]
  split
  · rename_i pc c hpc _
    obtain ⟨e, he⟩ := addIceCandidate_err_of_no_remote o pc c (h pc hpc)
    rw [he]
    exact ⟨by simp, by simp⟩
  · exact ⟨rfl, rfl⟩

/-- Witness for the amended C1: after `u2` joined (local offer pending, no
remote description), an ICE candidate from `u2` leaves the map and outbox
unchanged. -/
theorem c1_amended_witness :
    (handleIceCandidate okOracle (runMessages wBase [(okOracle, wJoin2)]) wIce2).peerConnections
      = (runMessages wBase [(okOracle, wJoin2)]).peerConnections
    ∧ (handleIceCandidate okOracle (runMessages wBase [(okOracle, wJoin2)]) wIce2).outbox
      = (runMessages wBase [(okOracle, wJoin2)]).outbox :=
  c1_amended_early_candidates_dropped okOracle (runMessages wBase [(okOracle, wJoin2)]) wIce2
    (fun pc hpc => by injection hpc with hp; rw [← hp]; rfl)

/-! ## Effect of `handleOffer`, `handleAnswer`, `handleIceCandidate` on
individual directory entries -/

theorem handleOffer_lookup_ne (o : Oracle) (s : Handler) (msg : SignalMsg) (y : Option String)
    (hy : y ≠ msg.fromId) :
    lookupPC (handleOffer o s msg).peerConnections y = lookupPC s.peerConnections y := by
  simp only [handleOffer]
  split
  all_goals try split
  all_goals try split
  all_goals try split
  all_goals simp [lookupPC_setPC, hy]

theorem handleOffer_lookup_self (o : Oracle) (s : Handler) (msg : SignalMsg) :
    (lookupPC (handleOffer o s msg).peerConnections msg.fromId).isSome = true := by
  simp only [handleOffer]
  split
  all_goals try split
  all_goals try split
  all_goals try split
  all_goals simp_all [lookupPC_setPC]

theorem handleAnswer_lookup_ne (o : Oracle) (s : Handler) (msg : SignalMsg) (y : Option String)
    (hy : y ≠ msg.fromId) :
    lookupPC (handleAnswer o s msg).peerConnections y = lookupPC s.peerConnections y := by
  simp only [handleAnswer]
  split
  all_goals try split
  all_goals simp [lookupPC_setPC, hy]

theorem handleAnswer_lookup_self (o : Oracle) (s : Handler) (msg : SignalMsg) (pc : PC)
    (hpc : lookupPC s.peerConnections msg.fromId = some pc) :
    (lookupPC (handleAnswer o s msg).peerConnections msg.fromId).isSome = true := by
  simp only [handleAnswer, pushLog_peerConnections, hpc]
  split <;> simp [lookupPC_setPC, hpc]

theorem handleIceCandidate_lookup_ne (o : Oracle) (s : Handler) (msg : SignalMsg)
    (y : Option String) (hy : y ≠ msg.fromId) :
    lookupPC (handleIceCandidate o s msg).peerConnections y = lookupPC s.peerConnections y := by
  simp only [handleIceCandidate]
  split
  all_goals try split
  all_goals simp [lookupPC_setPC, hy]

theorem handleIceCandidate_lookup_self (o : Oracle) (s : Handler) (msg : SignalMsg) (pc : PC)
    (hpc : lookupPC s.peerConnections msg.fromId = some pc) :
    (lookupPC (handleIceCandidate o s msg).peerConnections msg.fromId).isSome = true := by
  simp only [handleIceCandidate]
  split
  all_goals try split
  all_goals simp_all [lookupPC_setPC]

theorem handleAnswer_log (o : Oracle) (s : Handler) (msg : SignalMsg) :
    ∃ t, (handleAnswer o s msg).log = s.log ++ t ∧ t ≠ [] := by
  simp only [handleAnswer]
  split
  all_goals try split
  all_goals
    first
      | (refine ⟨["WebRTC: Received answer"], ?_, ?_⟩ <;> (simp; done))
      | (refine ⟨["WebRTC: Received answer", "WebRTC: Error setting remote description"],
          ?_, ?_⟩ <;> (simp; done))

theorem handleOffer_log (o : Oracle) (s : Handler) (msg : SignalMsg) :
    ∃ t, (handleOffer o s msg).log = s.log ++ t ∧ t ≠ [] := by
  simp only [handleOffer]
  split
  all_goals try split
  all_goals try split
  all_goals try split
  all_goals
    first
      | (refine ⟨["WebRTC: Received offer"], ?_, ?_⟩ <;> (simp; done))
      | (refine ⟨["WebRTC: Received offer", "WebRTC: Error handling offer"],
          ?_, ?_⟩ <;> (simp; done))

/-- Claim C2 counterexample: with connections for `u2` (awaiting an
answer) and `u3` present, `setRemoteDescription` rejects while handling
`u2`'s answer.  The claim says `u2`'s connection is then removed from the
Session Directory; in fact the error is only logged and `u2`'s entry
remains, unchanged. -/
theorem c2_counterexample :
    lookupPC (handleAnswer failSetRemoteOracle twoPeerState wAns2).peerConnections (some "u2")
      = some pcLocalOffer
    ∧ (handleAnswer failSetRemoteOracle twoPeerState wAns2).log
      = twoPeerState.log ++ ["WebRTC: Received answer", "WebRTC: Error setting remote description"] := by
  decide

/-- Claim C2 (amended): a description or candidate application failure
while handling an offer, answer, or ice-candidate message for participant
X is logged and swallowed, and X's connection is NOT removed: it remains
in (or, for an offer from an unknown peer, is added to) the Session
Directory, while every other participant's entry is unchanged (fault
isolation across entries holds; tear-down does not happen).  The statement
holds for every failure environment `o`, in particular every failing
one. -/
theorem c2_amended_failure_keeps_connection (o : Oracle) (s : Handler) (msg : SignalMsg) :
    (∀ y, y ≠ msg.fromId →
        lookupPC (handleOffer o s msg).peerConnections y = lookupPC s.peerConnections y
        ∧ lookupPC (handleAnswer o s msg).peerConnections y = lookupPC s.peerConnections y
        ∧ lookupPC (handleIceCandidate o s msg).peerConnections y = lookupPC s.peerConnections y)
    ∧ (lookupPC (handleOffer o s msg).peerConnections msg.fromId).isSome = true
    ∧ (∀ pc, lookupPC s.peerConnections msg.fromId = some pc →
        (lookupPC (handleAnswer o s msg).peerConnections msg.fromId).isSome = true
        ∧ (lookupPC (handleIceCandidate o s msg).peerConnections msg.fromId).isSome = true)
    ∧ (∃ t, (handleAnswer o s msg).log = s.log ++ t ∧ t ≠ [])
    ∧ (∃ t, (handleOffer o s msg).log = s.log ++ t ∧ t ≠ []) :=
  ⟨fun y hy => ⟨handleOffer_lookup_ne o s msg y hy, handleAnswer_lookup_ne o s msg y hy,
      handleIceCandidate_lookup_ne o s msg y hy⟩,
   handleOffer_lookup_self o s msg,
   fun pc hpc => ⟨handleAnswer_lookup_self o s msg pc hpc,
      handleIceCandidate_lookup_self o s msg pc hpc⟩,
   handleAnswer_log o s msg,
   handleOffer_log o s msg⟩

/-- Witness for the amended C2 at the concrete failing run of the C2
counterexample: `u3`'s entry is untouched and `u2`'s entry is still
present. -/
theorem c2_amended_witness :
    lookupPC (handleAnswer failSetRemoteOracle twoPeerState wAns2).peerConnections (some "u3")
      = lookupPC twoPeerState.peerConnections (some "u3")
    ∧ (lookupPC (handleAnswer failSetRemoteOracle twoPeerState wAns2).peerConnections
        (some "u2")).isSome = true :=
  ⟨((c2_amended_failure_keeps_connection failSetRemoteOracle twoPeerState wAns2).1
      (some "u3") (by decide)).2.1,
   ((c2_amended_failure_keeps_connection failSetRemoteOracle twoPeerState wAns2).2.2.1
      pcLocalOffer (by decide)).1⟩

/-- Claim C4, offerer path: with self id `u1`, an open signaling channel,
and no existing connection for `u2`, handling
`{type: user-joined, userId: u2, userName: Bob}` (with every platform
operation succeeding) appends exactly one outbound message — an offer to
`u2` stamped `from = u1`, carrying an SDP — and leaves a directory entry
for `u2` whose signaling state is `HAVE_LOCAL_OFFER`. -/
theorem c4_offerer_path (s : Handler)
    (hu : s.userId = "u1") (hw : s.ws = some true)
    (hnone : lookupPC s.peerConnections (some "u2") = none) :
    (∃ m d, (handleUserJoined okOracle s wJoin2).outbox = s.outbox ++ [m]
        ∧ m.type = "offer" ∧ m.toId = some "u2" ∧ m.fromId = some "u1" ∧ m.sdp = some d)
    ∧ ∃ pc, lookupPC (handleUserJoined okOracle s wJoin2).peerConnections (some "u2") = some pc
        ∧ pc.signalingState = SigState.haveLocalOffer := by
  have hne : ¬ (wJoin2.userId = some s.userId) := by simp [wJoin2, baseMsg, hu]
  obtain ⟨ts, hts⟩ := addLocalTracks_eq s.localStream newPC
  simp only [handleUserJoined, if_neg hne, createPC_fst_localStream, createPC_snd,
    pushLog_localStream, hts, createOffer, setLocalDescription, okOracle]
  simp only [wJoin2, baseMsg]
  simp [newPC, sendSignal, hw, lookupPC_setPC]
  exact hu

/-- Witness for C4 at the concrete initial handler state. -/
theorem c4_witness :
    (∃ m d, (handleUserJoined okOracle wBase wJoin2).outbox = wBase.outbox ++ [m]
        ∧ m.type = "offer" ∧ m.toId = some "u2" ∧ m.fromId = some "u1" ∧ m.sdp = some d)
    ∧ ∃ pc, lookupPC (handleUserJoined okOracle wBase wJoin2).peerConnections (some "u2") = some pc
        ∧ pc.signalingState = SigState.haveLocalOffer :=
  c4_offerer_path wBase rfl rfl rfl

/-- Claim C5, answerer path: with self id `u1`, an open signaling channel,
and no existing connection for `u3`, handling
`{type: offer, from: u3, to: u1, sdp: offer}` (with every platform
operation succeeding) creates a directory entry for `u3`, appends exactly
one outbound message — an answer to `u3` stamped `from = u1`, carrying an
SDP — and leaves that connection in state `STABLE`. -/
theorem c5_answerer_path (s : Handler)
    (hu : s.userId = "u1") (hw : s.ws = some true)
    (hnone : lookupPC s.peerConnections (some "u3") = none) :
    (∃ m d, (handleOffer okOracle s wOff3).outbox = s.outbox ++ [m]
        ∧ m.type = "answer" ∧ m.toId = some "u3" ∧ m.fromId = some "u1" ∧ m.sdp = some d)
    ∧ ∃ pc, lookupPC (handleOffer okOracle s wOff3).peerConnections (some "u3") = some pc
        ∧ pc.signalingState = SigState.stable := by
  obtain ⟨ts, hts⟩ := addLocalTracks_eq s.localStream newPC
  simp only [handleOffer, wOff3, baseMsg, pushLog_peerConnections, hnone,
    createPC_fst_localStream, createPC_snd, pushLog_localStream, hts,
    setRemoteDescription, createAnswer, setLocalDescription, okOracle]
  simp [newPC, sendSignal, hw, lookupPC_setPC]
  exact hu

/-- Witness for C5 at the concrete initial handler state. -/
theorem c5_witness :
    (∃ m d, (handleOffer okOracle wBase wOff3).outbox = wBase.outbox ++ [m]
        ∧ m.type = "answer" ∧ m.toId = some "u3" ∧ m.fromId = some "u1" ∧ m.sdp = some d)
    ∧ ∃ pc, lookupPC (handleOffer okOracle wBase wOff3).peerConnections (some "u3") = some pc
        ∧ pc.signalingState = SigState.stable :=
  c5_answerer_path wBase rfl rfl rfl

/-- Claim C10: a `user-joined` message for a participant that already has
a directory entry creates a fresh connection that overwrites the entry,
and the displaced connection object is dropped without ever being closed:
the ghost `dropped` record receives the old value verbatim — in
particular with its signaling state exactly as it was, not `closed`. -/
theorem setLocalDescription_ok_fields (o : Oracle) (pc pcL : PC) (d : Sdp)
    (h : setLocalDescription o pc d = Except.ok pcL) :
    pcL.remoteDescription = pc.remoteDescription
    ∧ pcL.appliedCandidates = pc.appliedCandidates := by
  unfold setLocalDescription at h
  split at h
  · simp at h
  · split at h <;>
      ((try injection h with h2); (try subst h2); (try exact ⟨rfl, rfl⟩); (try simp at h))

theorem c10_rejoin_overwrites_without_close (o : Oracle) (s : Handler) (msg : SignalMsg)
    (pcOld : PC) (hself : ¬ msg.userId = some s.userId)
    (hold : lookupPC s.peerConnections msg.userId = some pcOld) :
    (handleUserJoined o s msg).dropped = s.dropped ++ [pcOld]
    ∧ ∃ pcNew, lookupPC (handleUserJoined o s msg).peerConnections msg.userId = some pcNew
        ∧ pcNew.remoteDescription = none ∧ pcNew.appliedCandidates = [] := by
  obtain ⟨ts, hts⟩ := addLocalTracks_eq s.localStream newPC
  simp only [handleUserJoined, if_neg hself, createPeerConnection,
    pushLog_peerConnections, pushLog_localStream, pushLog_dropped, hold, hts]
  split
  all_goals try split
  · exact ⟨by simp, by simp [lookupPC_setPC, newPC]⟩
  · exact ⟨by simp, by simp [lookupPC_setPC, newPC]⟩
  · rename_i od hco pcL hsl
    obtain ⟨h1, h2⟩ := setLocalDescription_ok_fields _ _ _ _ hsl
    exact ⟨by simp, ⟨pcL, by simp [lookupPC_setPC], by simp [h1, newPC], by simp [h2, newPC]⟩⟩

/-- Witness for C10: `u2` joins twice in a row; the second join displaces
the first connection (still in `HAVE_LOCAL_OFFER`, never closed) and
installs a fresh one. -/
theorem c10_witness :
    (handleUserJoined okOracle (runMessages wBase [(okOracle, wJoin2)]) wJoin2).dropped
      = (runMessages wBase [(okOracle, wJoin2)]).dropped
          ++ [⟨SigState.haveLocalOffer, some ⟨SdpType.offer, 0⟩, none, [], []⟩]
    ∧ ∃ pcNew, lookupPC
          (handleUserJoined okOracle (runMessages wBase [(okOracle, wJoin2)]) wJoin2).peerConnections
          wJoin2.userId = some pcNew
        ∧ pcNew.remoteDescription = none ∧ pcNew.appliedCandidates = [] :=
  c10_rejoin_overwrites_without_close okOracle (runMessages wBase [(okOracle, wJoin2)]) wJoin2
    ⟨SigState.haveLocalOffer, some ⟨SdpType.offer, 0⟩, none, [], []⟩ (by decide) (by decide)

end MeetingPage
